import Mathlib

/-!
Verification of the `k3pi_utilities` python sources
(`py_k3pi_utilities/utils.py` and `ConvertPhsp.py`).

Pure python functions are embedded as Lean functions over exact numbers
(ℚ for the python floats where all inputs are decimal literals, ℝ where the
claim involves square roots or π).  Functions belonging to the repository's
C++ library `K3PiStudiesUtils` (not shipped with the python sources) are
modelled from the specification and marked as such in their doc comments.
-/

namespace K3PiUtils

/-- A four-momentum in the "target convention": energy first, then the three
momentum components.  This models the `TLorentzVector` objects produced by
`K3PiStudiesUtils.toTLorentzVector(pE, px, py, pz)`, parametrised over the
scalar type. -/
structure LorentzVec (α : Type) where
  E : α
  px : α
  py : α
  pz : α
deriving DecidableEq, Repr

/-- Modelled from the spec: `K3PiStudiesUtils.toTLorentzVector` (C++ part of the
repository, not under the python sources) builds "a four-momentum in target
convention (E, px, py, pz)" from its four arguments, given in the order
energy, px, py, pz. -/
def toTLorentzVector {α : Type} (pE px py pz : α) : LorentzVec α :=
  ⟨pE, px, py, pz⟩

/-- Modelled from the spec: the constant `K3PiStudiesUtils._GEV_TO_MEV`
(C++ part of the repository, not under the python sources), "a fixed
multiplicative constant" converting "generator units (GeV)" to
"target units (MeV)", hence 1000. -/
def _GEV_TO_MEV : ℚ := 1000

/-- Embedding of `utils.ampGentoTLorentzVector` (utils.py:166-172).
The python indexes the input sequence at 3, 0, 1, 2 (AmpGen ordering is
px, py, pz, pE); indexing a too-short sequence raises, which the embedding
renders as `none`. -/
def ampGentoTLorentzVector (ampGen4Vec_GeV : List ℚ) : Option (LorentzVec ℚ) := do
  let pE ← ampGen4Vec_GeV[3]?
  let px ← ampGen4Vec_GeV[0]?
  let py ← ampGen4Vec_GeV[1]?
  let pz ← ampGen4Vec_GeV[2]?
  pure (toTLorentzVector (pE * _GEV_TO_MEV) (px * _GEV_TO_MEV)
    (py * _GEV_TO_MEV) (pz * _GEV_TO_MEV))

/-- Modelled from the spec: the inverse of the unit/ordering conversion,
"converting a four-momentum to the target unit/order and back": reorder the
components back to (px, py, pz, E) and scale MeV back to GeV. -/
def tLorentzVectorToAmpGen (v : LorentzVec ℚ) : List ℚ :=
  [v.px / _GEV_TO_MEV, v.py / _GEV_TO_MEV, v.pz / _GEV_TO_MEV, v.E / _GEV_TO_MEV]

/-- Embedding of `utils.getAmpGenKName` (utils.py:16-26). -/
def getAmpGenKName (IS_D0 IS_RS : Bool) : String :=
  if IS_D0 then
    if IS_RS then "K#" else "K~"
  else
    if IS_RS then "K~" else "K#"

/-- Embedding of `utils.getAmpGenOSPiName` (utils.py:29-39). -/
def getAmpGenOSPiName (IS_D0 IS_RS : Bool) : String :=
  if IS_D0 then
    if IS_RS then "pi~" else "pi#"
  else
    if IS_RS then "pi#" else "pi~"

/-- Embedding of `utils.getAmpGenSSPiName` (utils.py:42-52). -/
def getAmpGenSSPiName (IS_D0 IS_RS : Bool) : String :=
  if IS_D0 then
    if IS_RS then "pi#" else "pi~"
  else
    if IS_RS then "pi~" else "pi#"

/-- Modelled from the spec: a ROOT histogram object as seen by the wrapper
module.  The framework-owned state the wrapper touches is whether the
histogram is attached to its originating file; `SetDirectory(0)` detaches it
"so closing the file does not delete it". -/
structure TH1 where
  name : String
  attachedToFile : Bool
deriving DecidableEq, Repr

/-- Modelled from the spec: a ROOT file, holding histograms retrievable by
name via `TFile.Get`; `Get` on an absent name yields a null (falsy) result. -/
structure TFile where
  contents : String → Option TH1

/-- Modelled from the spec: closing a ROOT file deletes the histograms still
attached to it; a detached histogram survives. -/
def closeFileEffect (h : TH1) : Option TH1 :=
  if h.attachedToFile then none else some h

/-- The observable outcome of `loadHistFromFile`: the diagnostic it prints
and the value it returns. -/
structure LoadHistResult where
  printed : String
  returned : Option TH1
deriving DecidableEq, Repr

/-- Embedding of `utils.loadHistFromFile` (utils.py:83-93): `Get` the
histogram, branch on its truthiness (null is falsy), print the
found/not-found diagnostic, detach via `SetDirectory(0)` in the found
branch, close the file, return the histogram. -/
def loadHistFromFile (file : TFile) (histName : String) : LoadHistResult :=
  match file.contents histName with
  | some h =>
      { printed := "Found histogram named " ++ histName ++ " in file"
        returned := closeFileEffect { h with attachedToFile := false } }
  | none =>
      { printed := "Did not find histogram named " ++ histName ++ " in file"
        returned := none }

/-- A concrete one-histogram file used to instantiate the `loadHistFromFile`
theorem. -/
def demoFile : TFile :=
  ⟨fun n => if n = "h1" then some ⟨"h1", true⟩ else none⟩

/-- Componentwise addition of four-momenta, as performed by `TLorentzVector`
`operator+` in the script's `k + osPi1` etc. -/
instance {α : Type} [Add α] : Add (LorentzVec α) :=
  ⟨fun a b => ⟨a.E + b.E, a.px + b.px, a.py + b.py, a.pz + b.pz⟩⟩

/-- The Minkowski norm squared E² − px² − py² − pz² of a four-momentum. -/
def LorentzVec.massSq {α : Type} [CommRing α] (v : LorentzVec α) : α :=
  v.E ^ 2 - v.px ^ 2 - v.py ^ 2 - v.pz ^ 2

/-- Modelled from the spec: the invariant mass `TLorentzVector::M()` (the
external vector-math library; glossary: "the Lorentz-invariant mass computed
from a four-momentum"), the signed square root of the Minkowski norm
squared. -/
noncomputable def LorentzVec.M (v : LorentzVec ℝ) : ℝ :=
  if v.massSq < 0 then -Real.sqrt (-v.massSq) else Real.sqrt v.massSq

/-- Interpret a rational four-momentum (exact script literals) as a real
one. -/
def toReal (v : LorentzVec ℚ) : LorentzVec ℝ :=
  ⟨(v.E : ℝ), (v.px : ℝ), (v.py : ℝ), (v.pz : ℝ)⟩

/-- The six unordered pairs of a list's elements, in the script's order. -/
def unorderedPairs {α : Type} : List α → List (α × α)
  | [] => []
  | x :: xs => xs.map (fun y => (x, y)) ++ unorderedPairs xs

/-- Embedding of the cross-check block (ConvertPhsp.py:43-48, repeated at
101-106): the list of printed values, the invariant mass of the vector sum
of each pair of daughters, divided by 1000 (MeV → GeV). -/
noncomputable def crossCheckMs (k osPi1 osPi2 ssPi : LorentzVec ℝ) : List ℝ :=
  [ (k + osPi1).M / 1000, (k + osPi2).M / 1000, (k + ssPi).M / 1000,
    (osPi1 + osPi2).M / 1000, (osPi1 + ssPi).M / 1000,
    (osPi2 + ssPi).M / 1000 ]

/-- A spatial rotation applied to the momentum part of a four-momentum,
leaving the energy unchanged. -/
def rotate (R : Matrix (Fin 3) (Fin 3) ℝ) (v : LorentzVec ℝ) : LorentzVec ℝ :=
  ⟨v.E, R.mulVec ![v.px, v.py, v.pz] 0, R.mulVec ![v.px, v.py, v.pz] 1,
    R.mulVec ![v.px, v.py, v.pz] 2⟩

/-- Modelled from the spec: `K3PiStudiesUtils.changeAngleRange_neg_pi_to_pi`
(C++ part of the repository, not under the python sources) performs "angle
canonicalization to (−π, π]": it shifts its argument by the integer multiple
of 2π that lands it in the half-open interval (−π, π]. -/
noncomputable def changeAngleRange_neg_pi_to_pi (theta : ℝ) : ℝ :=
  theta - 2 * Real.pi * (⌈(theta - Real.pi) / (2 * Real.pi)⌉ : ℤ)

/-- Modelled from the spec: the two invariant-mass components of the
phase-space tuple returned by `K3PiStudiesUtils.calc_phsp` (C++ part of the
repository, not under the python sources).  The spec says the five-tuple is
(m12, m34, c12, c34, phi) with "two invariant masses" of the ordered
daughters; per the script's own labels, m12 pairs daughters 1 and 2 and m34
pairs daughters 3 and 4.  The cosine and angle components have no formula in
the spec and are not modelled. -/
noncomputable def calc_phsp_masses (_pD0 d1 d2 d3 d4 : LorentzVec ℝ) : ℝ × ℝ :=
  ((d1 + d2).M, (d3 + d4).M)

/-- ConvertPhsp.py:14 — the parent mass in MeV. -/
def D0_M_MEV : ℚ := 1864.84

/-- ConvertPhsp.py:20 — the K four-momentum literal (px, py, pz, E, GeV). -/
def kAmpGen_GeV : List ℚ :=
  [-0.22605460233259722, 0.37058687639201848, -0.046885439376411875,
    0.65905276036464722]

/-- ConvertPhsp.py:21 — the first opposite-sign pion literal. -/
def osPi1AmpGen_GeV : List ℚ :=
  [0.075397408921232992, 0.24469544143911467, 0.20952672690121868,
    0.35908482669738223]

/-- ConvertPhsp.py:22 — the second opposite-sign pion literal. -/
def osPi2AmpGen_GeV : List ℚ :=
  [0.07358860140319394, -0.24208436188963289, -0.30165403210059527,
    0.41772611931236503]

/-- ConvertPhsp.py:23 — the same-sign pion literal. -/
def ssPiAmpGen_GeV : List ℚ :=
  [0.077068592008170317, -0.37319795594150029, 0.13901274457578858,
    0.42897629362560541]

/-- ConvertPhsp.py:93 — the GooFit-supplied K literal. -/
def testK : List ℚ := [0.389060, -0.140074, -0.140162, 0.659053]

/-- ConvertPhsp.py:94 — the GooFit-supplied first opposite-sign pion. -/
def testOSPi1 : List ℚ := [0.264945, 0.140074, 0.140162, 0.359085]

/-- ConvertPhsp.py:95 — the GooFit-supplied second opposite-sign pion. -/
def testOSPi2 : List ℚ := [-0.319720, -0.229770, 0.000000, 0.417726]

/-- ConvertPhsp.py:96 — the GooFit-supplied same-sign pion. -/
def testSSPi : List ℚ := [-0.334285, 0.229770, 0.000000, 0.428976]

/-- ConvertPhsp.py:26 — the converted K four-momentum (MeV). -/
def k_MeV : LorentzVec ℚ :=
  (ampGentoTLorentzVector kAmpGen_GeV).getD ⟨0, 0, 0, 0⟩

/-- ConvertPhsp.py:27 — the converted first opposite-sign pion (MeV). -/
def osPi1_MeV : LorentzVec ℚ :=
  (ampGentoTLorentzVector osPi1AmpGen_GeV).getD ⟨0, 0, 0, 0⟩

/-- ConvertPhsp.py:28 — the converted second opposite-sign pion (MeV). -/
def osPi2_MeV : LorentzVec ℚ :=
  (ampGentoTLorentzVector osPi2AmpGen_GeV).getD ⟨0, 0, 0, 0⟩

/-- ConvertPhsp.py:29 — the converted same-sign pion (MeV). -/
def ssPi_MeV : LorentzVec ℚ :=
  (ampGentoTLorentzVector ssPiAmpGen_GeV).getD ⟨0, 0, 0, 0⟩

/-- ConvertPhsp.py:30 — the parent at rest. -/
def d0_MeV : LorentzVec ℚ := toTLorentzVector D0_M_MEV 0 0 0

/-- ConvertPhsp.py:97 — the converted GooFit K (MeV). -/
def testKVec_MeV : LorentzVec ℚ :=
  (ampGentoTLorentzVector testK).getD ⟨0, 0, 0, 0⟩

/-- ConvertPhsp.py:98 — the converted GooFit first opposite-sign pion. -/
def testOSPi1Vec_MeV : LorentzVec ℚ :=
  (ampGentoTLorentzVector testOSPi1).getD ⟨0, 0, 0, 0⟩

/-- ConvertPhsp.py:99 — the converted GooFit second opposite-sign pion. -/
def testOSPi2Vec_MeV : LorentzVec ℚ :=
  (ampGentoTLorentzVector testOSPi2).getD ⟨0, 0, 0, 0⟩

/-- ConvertPhsp.py:100 — the converted GooFit same-sign pion. -/
def testSSPiVec_MeV : LorentzVec ℚ :=
  (ampGentoTLorentzVector testSSPi).getD ⟨0, 0, 0, 0⟩

end K3PiUtils

namespace K3PiUtils

/-- C1: For every four-component input (px, py, pz, E) in GeV,
`ampGentoTLorentzVector` returns the four-momentum (E, px, py, pz) with every
component multiplied by the fixed GeV-to-MeV constant 1000. -/
theorem C1_ampGen_conversion (px py pz E : ℚ) :
    ampGentoTLorentzVector [px, py, pz, E] =
      some ⟨1000 * E, 1000 * px, 1000 * py, 1000 * pz⟩ := by
  simp [ampGentoTLorentzVector, toTLorentzVector, _GEV_TO_MEV, mul_comm]

/-- C2: The unit/ordering conversion is linear and invertible: applying
`ampGentoTLorentzVector` and then the inverse map (reorder back to
px-py-pz-E and scale MeV to GeV) recovers the original four components;
over exact rational arithmetic the round trip is the identity. -/
theorem C2_round_trip (px py pz E : ℚ) :
    (ampGentoTLorentzVector [px, py, pz, E]).map tLorentzVectorToAmpGen =
      some [px, py, pz, E] := by
  simp [ampGentoTLorentzVector, tLorentzVectorToAmpGen, toTLorentzVector,
    _GEV_TO_MEV]

/-- C6: On any input sequence of at least four components,
`ampGentoTLorentzVector` completes without raising (returns `some`), and it
reads only indices 0 through 3: its result depends only on the first four
elements of the input. -/
theorem C6_no_error_conditions (l : List ℚ) (h : 4 ≤ l.length) :
    (∃ v, ampGentoTLorentzVector l = some v) ∧
      (∀ l' : List ℚ, l.take 4 = l'.take 4 →
        ampGentoTLorentzVector l = ampGentoTLorentzVector l') := by
  constructor
  · have e0 := List.getElem?_eq_getElem (show 0 < l.length by omega)
    have e1 := List.getElem?_eq_getElem (show 1 < l.length by omega)
    have e2 := List.getElem?_eq_getElem (show 2 < l.length by omega)
    have e3 := List.getElem?_eq_getElem (show 3 < l.length by omega)
    rw [← Option.isSome_iff_exists]
    simp [ampGentoTLorentzVector, e0, e1, e2, e3]
  · intro l' htake
    have key : ∀ i : ℕ, i < 4 → l[i]? = l'[i]? := by
      intro i hi
      have : (l.take 4)[i]? = (l'.take 4)[i]? := by rw [htake]
      simpa [List.getElem?_take, hi] using this
    simp [ampGentoTLorentzVector, key 0 (by norm_num), key 1 (by norm_num),
      key 2 (by norm_num), key 3 (by norm_num)]

/-- Witness for C6 at a concrete five-element input: the conversion succeeds
and is unchanged when the fifth element is replaced. -/
theorem C6_no_error_conditions_witness :
    (∃ v, ampGentoTLorentzVector [1, 2, 3, 4, 5] = some v) ∧
      ampGentoTLorentzVector [1, 2, 3, 4, 5] =
        ampGentoTLorentzVector [1, 2, 3, 4, 6] :=
  ⟨(C6_no_error_conditions [1, 2, 3, 4, 5] (by decide)).1,
   (C6_no_error_conditions [1, 2, 3, 4, 5] (by decide)).2
     [1, 2, 3, 4, 6] rfl⟩

/-- C3: `loadHistFromFile` prints a not-found diagnostic and returns a
null/absent value when no histogram of the given name exists in the file;
when found it prints a found message, detaches the histogram from the file
(so closing the file does not delete it), and returns the histogram. -/
theorem C3_loadHistFromFile_spec (file : TFile) (histName : String) :
    (file.contents histName = none →
      (loadHistFromFile file histName).printed =
          "Did not find histogram named " ++ histName ++ " in file" ∧
        (loadHistFromFile file histName).returned = none) ∧
    (∀ h : TH1, file.contents histName = some h →
      (loadHistFromFile file histName).printed =
          "Found histogram named " ++ histName ++ " in file" ∧
        (loadHistFromFile file histName).returned =
          some { h with attachedToFile := false }) := by
  constructor
  · intro hnone
    simp [loadHistFromFile, hnone]
  · intro h hsome
    simp [loadHistFromFile, hsome, closeFileEffect]

/-- Witness for C3 on a concrete file: a missing name gives the not-found
message, a present name gives back the detached histogram. -/
theorem C3_loadHistFromFile_spec_witness :
    (loadHistFromFile demoFile "h2").printed =
        "Did not find histogram named h2 in file" ∧
      (loadHistFromFile demoFile "h1").returned = some ⟨"h1", false⟩ :=
  ⟨((C3_loadHistFromFile_spec demoFile "h2").1 (by decide)).1,
   ((C3_loadHistFromFile_spec demoFile "h1").2 ⟨"h1", true⟩ (by decide)).2⟩

/-- C9: Each naming helper depends only on whether its two boolean flags
agree: flipping both flags leaves the result unchanged, and `getAmpGenKName`
returns "K#" exactly when `IS_D0 = IS_RS` and "K~" otherwise. -/
theorem C9_naming_flag_agreement :
    (∀ d r : Bool, getAmpGenKName d r = getAmpGenKName (!d) (!r)) ∧
    (∀ d r : Bool, getAmpGenOSPiName d r = getAmpGenOSPiName (!d) (!r)) ∧
    (∀ d r : Bool, getAmpGenSSPiName d r = getAmpGenSSPiName (!d) (!r)) ∧
    (∀ d r : Bool, (getAmpGenKName d r = "K#" ↔ d = r) ∧
      (getAmpGenKName d r = "K~" ↔ d ≠ r)) := by
  refine ⟨?_, ?_, ?_, ?_⟩ <;> decide

/-- The addition instance, unfolded. -/
theorem LorentzVec.add_def {α : Type} [Add α] (a b : LorentzVec α) :
    a + b = ⟨a.E + b.E, a.px + b.px, a.py + b.py, a.pz + b.pz⟩ := rfl

/-- Addition of four-momenta is commutative. -/
theorem LorentzVec.add_comm' (a b : LorentzVec ℝ) : a + b = b + a := by
  simp only [LorentzVec.add_def, LorentzVec.mk.injEq]
  refine ⟨?_, ?_, ?_, ?_⟩ <;> ring

/-- The Minkowski norm squared of a rational four-momentum, cast to ℝ. -/
theorem massSq_toReal (v : LorentzVec ℚ) :
    (toReal v).massSq = ((v.massSq : ℚ) : ℝ) := by
  simp [LorentzVec.massSq, toReal]

/-- C4: The cross-check computes the invariant mass of the vector sum for
each of the six unordered pairs of the four daughter four-momenta (in the
order K+osPi1, K+osPi2, K+ssPi, osPi1+osPi2, osPi1+ssPi, osPi2+ssPi) and
prints all six (in GeV, i.e. divided by 1000). -/
theorem C4_cross_check_pairs (k osPi1 osPi2 ssPi : LorentzVec ℝ) :
    crossCheckMs k osPi1 osPi2 ssPi =
        (unorderedPairs [k, osPi1, osPi2, ssPi]).map
          (fun p => (p.1 + p.2).M / 1000) ∧
      (crossCheckMs k osPi1 osPi2 ssPi).length = 6 := by
  constructor
  · simp [crossCheckMs, unorderedPairs]
  · simp [crossCheckMs]

/-- C5: The angle canonicalization lands in (−π, π], is congruent to its
argument modulo 2π, and is idempotent. -/
theorem C5_changeAngleRange (theta : ℝ) :
    changeAngleRange_neg_pi_to_pi theta ∈ Set.Ioc (-Real.pi) Real.pi ∧
      (∃ k : ℤ, changeAngleRange_neg_pi_to_pi theta =
        theta - 2 * Real.pi * k) ∧
      changeAngleRange_neg_pi_to_pi (changeAngleRange_neg_pi_to_pi theta) =
        changeAngleRange_neg_pi_to_pi theta := by
  have hpi : (0:ℝ) < Real.pi := Real.pi_pos
  have h2pi : (0:ℝ) < 2 * Real.pi := by linarith
  have hmem : ∀ t : ℝ, changeAngleRange_neg_pi_to_pi t ∈
      Set.Ioc (-Real.pi) Real.pi := by
    intro t
    have hle : (t - Real.pi) / (2 * Real.pi) ≤
        (⌈(t - Real.pi) / (2 * Real.pi)⌉ : ℤ) := Int.le_ceil _
    have hlt : ((⌈(t - Real.pi) / (2 * Real.pi)⌉ : ℤ) : ℝ) <
        (t - Real.pi) / (2 * Real.pi) + 1 := Int.ceil_lt_add_one _
    have hle' : t - Real.pi ≤
        ((⌈(t - Real.pi) / (2 * Real.pi)⌉ : ℤ) : ℝ) * (2 * Real.pi) :=
      (div_le_iff₀ h2pi).mp hle
    have hlt' : ((⌈(t - Real.pi) / (2 * Real.pi)⌉ : ℤ) : ℝ) * (2 * Real.pi) <
        (t - Real.pi) + (2 * Real.pi) := by
      have := mul_lt_mul_of_pos_right hlt h2pi
      rw [add_mul, one_mul, div_mul_cancel₀ _ (ne_of_gt h2pi)] at this
      exact this
    constructor
    · simp only [changeAngleRange_neg_pi_to_pi]
      nlinarith
    · simp only [changeAngleRange_neg_pi_to_pi]
      nlinarith
  refine ⟨hmem theta, ⟨⌈(theta - Real.pi) / (2 * Real.pi)⌉, rfl⟩, ?_⟩
  obtain ⟨hgt, hle⟩ := hmem theta
  have hceil : ⌈(changeAngleRange_neg_pi_to_pi theta - Real.pi) /
      (2 * Real.pi)⌉ = 0 := by
    rw [Int.ceil_eq_zero_iff]
    constructor
    · show (-1:ℝ) < _
      rw [lt_div_iff₀ h2pi]
      linarith
    · show _ ≤ (0:ℝ)
      rw [div_nonpos_iff]
      right
      constructor
      · linarith
      · linarith
  conv in changeAngleRange_neg_pi_to_pi (changeAngleRange_neg_pi_to_pi _) =>
    rw [changeAngleRange_neg_pi_to_pi]
  rw [hceil]
  push_cast
  ring

/-- C8: The invariant mass of a two-body sum is commutative in its
operands and invariant under applying the same spatial rotation (an
orthogonal 3×3 matrix) to both momenta. -/
theorem C8_invariant_mass_symmetry (a b : LorentzVec ℝ) :
    (a + b).M = (b + a).M ∧
      ∀ R : Matrix (Fin 3) (Fin 3) ℝ, R.transpose * R = 1 →
        (rotate R a + rotate R b).M = (a + b).M := by
  constructor
  · rw [LorentzVec.add_comm']
  · intro R hR
    have h00 : R 0 0 * R 0 0 + R 1 0 * R 1 0 + R 2 0 * R 2 0 = 1 := by
      simpa [Matrix.mul_apply, Matrix.transpose_apply, Fin.sum_univ_three,
        Matrix.one_apply] using congrFun (congrFun hR 0) 0
    have h01 : R 0 0 * R 0 1 + R 1 0 * R 1 1 + R 2 0 * R 2 1 = 0 := by
      simpa [Matrix.mul_apply, Matrix.transpose_apply, Fin.sum_univ_three,
        Matrix.one_apply] using congrFun (congrFun hR 0) 1
    have h02 : R 0 0 * R 0 2 + R 1 0 * R 1 2 + R 2 0 * R 2 2 = 0 := by
      simpa [Matrix.mul_apply, Matrix.transpose_apply, Fin.sum_univ_three,
        Matrix.one_apply] using congrFun (congrFun hR 0) 2
    have h11 : R 0 1 * R 0 1 + R 1 1 * R 1 1 + R 2 1 * R 2 1 = 1 := by
      simpa [Matrix.mul_apply, Matrix.transpose_apply, Fin.sum_univ_three,
        Matrix.one_apply] using congrFun (congrFun hR 1) 1
    have h12 : R 0 1 * R 0 2 + R 1 1 * R 1 2 + R 2 1 * R 2 2 = 0 := by
      simpa [Matrix.mul_apply, Matrix.transpose_apply, Fin.sum_univ_three,
        Matrix.one_apply] using congrFun (congrFun hR 1) 2
    have h22 : R 0 2 * R 0 2 + R 1 2 * R 1 2 + R 2 2 * R 2 2 = 1 := by
      simpa [Matrix.mul_apply, Matrix.transpose_apply, Fin.sum_univ_three,
        Matrix.one_apply] using congrFun (congrFun hR 2) 2
    have key : (rotate R a + rotate R b).massSq = (a + b).massSq := by
      simp only [LorentzVec.massSq, rotate, LorentzVec.add_def,
        Matrix.mulVec, Matrix.dotProduct, Fin.sum_univ_three,
        Matrix.cons_val_zero, Matrix.cons_val_one, Matrix.head_cons,
        Matrix.cons_val_two, Matrix.tail_cons]
      linear_combination (-((a.px + b.px) ^ 2)) * h00 +
        (-((a.py + b.py) ^ 2)) * h11 + (-((a.pz + b.pz) ^ 2)) * h22 +
        (-(2 * (a.px + b.px) * (a.py + b.py))) * h01 +
        (-(2 * (a.px + b.px) * (a.pz + b.pz))) * h02 +
        (-(2 * (a.py + b.py) * (a.pz + b.pz))) * h12
    simp only [LorentzVec.M, key]

/-- Witness for C8: the identity matrix is orthogonal, and applying it to
both momenta of a concrete pair preserves the invariant mass of the sum. -/
theorem C8_invariant_mass_symmetry_witness :
    (rotate 1 ⟨1, 2, 3, 4⟩ + rotate 1 ⟨5, 6, 7, 8⟩).M =
      ((⟨1, 2, 3, 4⟩ + ⟨5, 6, 7, 8⟩ : LorentzVec ℝ)).M :=
  (C8_invariant_mass_symmetry ⟨1, 2, 3, 4⟩ ⟨5, 6, 7, 8⟩).2 1
    (by simp)

/-- Evaluation of the converted K four-momentum (MeV). -/
theorem k_MeV_eq :
    k_MeV = ⟨659.05276036464722, -226.05460233259722, 370.58687639201848,
      -46.885439376411875⟩ := by
  norm_num [k_MeV, kAmpGen_GeV, ampGentoTLorentzVector, toTLorentzVector,
    _GEV_TO_MEV]

/-- Evaluation of the converted first opposite-sign pion (MeV). -/
theorem osPi1_MeV_eq :
    osPi1_MeV = ⟨359.08482669738223, 75.397408921232992, 244.69544143911467,
      209.52672690121868⟩ := by
  norm_num [osPi1_MeV, osPi1AmpGen_GeV, ampGentoTLorentzVector,
    toTLorentzVector, _GEV_TO_MEV]

/-- Evaluation of the converted second opposite-sign pion (MeV). -/
theorem osPi2_MeV_eq :
    osPi2_MeV = ⟨417.72611931236503, 73.58860140319394, -242.08436188963289,
      -301.65403210059527⟩ := by
  norm_num [osPi2_MeV, osPi2AmpGen_GeV, ampGentoTLorentzVector,
    toTLorentzVector, _GEV_TO_MEV]

/-- Evaluation of the converted same-sign pion (MeV). -/
theorem ssPi_MeV_eq :
    ssPi_MeV = ⟨428.97629362560541, 77.068592008170317, -373.19795594150029,
      139.01274457578858⟩ := by
  norm_num [ssPi_MeV, ssPiAmpGen_GeV, ampGentoTLorentzVector,
    toTLorentzVector, _GEV_TO_MEV]

/-- Evaluation of the converted GooFit K (MeV). -/
theorem testKVec_MeV_eq :
    testKVec_MeV = ⟨659.053, 389.06, -140.074, -140.162⟩ := by
  norm_num [testKVec_MeV, testK, ampGentoTLorentzVector, toTLorentzVector,
    _GEV_TO_MEV]

/-- Evaluation of the converted GooFit first opposite-sign pion (MeV). -/
theorem testOSPi1Vec_MeV_eq :
    testOSPi1Vec_MeV = ⟨359.085, 264.945, 140.074, 140.162⟩ := by
  norm_num [testOSPi1Vec_MeV, testOSPi1, ampGentoTLorentzVector,
    toTLorentzVector, _GEV_TO_MEV]

/-- Evaluation of the converted GooFit second opposite-sign pion (MeV). -/
theorem testOSPi2Vec_MeV_eq :
    testOSPi2Vec_MeV = ⟨417.726, -319.72, -229.77, 0⟩ := by
  norm_num [testOSPi2Vec_MeV, testOSPi2, ampGentoTLorentzVector,
    toTLorentzVector, _GEV_TO_MEV]

/-- Evaluation of the converted GooFit same-sign pion (MeV). -/
theorem testSSPiVec_MeV_eq :
    testSSPiVec_MeV = ⟨428.976, -334.285, 229.77, 0⟩ := by
  norm_num [testSSPiVec_MeV, testSSPi, ampGentoTLorentzVector,
    toTLorentzVector, _GEV_TO_MEV]

/-- C7 counterexample: The two literal sets of the script (the raw AmpGen
literals and the GooFit-supplied literals) do not yield exactly equal
invariant masses: already for the first pair, K + osPi1, the invariant mass
from the AmpGen literals differs from the one from the GooFit literals (the
GooFit literals are rounded to six decimals). -/
theorem C7_counterexample :
    (toReal (k_MeV + osPi1_MeV)).M ≠
      (toReal (testKVec_MeV + testOSPi1Vec_MeV)).M := by
  intro heq
  have ha : (0:ℚ) ≤ (k_MeV + osPi1_MeV).massSq := by
    rw [k_MeV_eq, osPi1_MeV_eq]
    norm_num [LorentzVec.add_def, LorentzVec.massSq]
  have hb : (0:ℚ) ≤ (testKVec_MeV + testOSPi1Vec_MeV).massSq := by
    rw [testKVec_MeV_eq, testOSPi1Vec_MeV_eq]
    norm_num [LorentzVec.add_def, LorentzVec.massSq]
  have hne : (k_MeV + osPi1_MeV).massSq ≠
      (testKVec_MeV + testOSPi1Vec_MeV).massSq := by
    rw [k_MeV_eq, osPi1_MeV_eq, testKVec_MeV_eq, testOSPi1Vec_MeV_eq]
    norm_num [LorentzVec.add_def, LorentzVec.massSq]
  have ha' : (0:ℝ) ≤ (toReal (k_MeV + osPi1_MeV)).massSq := by
    rw [massSq_toReal]
    exact_mod_cast ha
  have hb' : (0:ℝ) ≤ (toReal (testKVec_MeV + testOSPi1Vec_MeV)).massSq := by
    rw [massSq_toReal]
    exact_mod_cast hb
  simp only [LorentzVec.M, if_neg (not_lt.mpr ha'),
    if_neg (not_lt.mpr hb')] at heq
  have hsq := (Real.sqrt_inj ha' hb').mp heq
  rw [massSq_toReal, massSq_toReal] at hsq
  exact hne (by exact_mod_cast hsq)

/-- C7 amended: For the hard-coded daughters and the parent at rest,
the invariant-mass components of the (spec-modelled) phase-space tuple equal
the two-body invariant masses computed by direct summation — the tuple's m12
and m34 are the first and last printed cross-check values, up to the MeV→GeV
division — and the two literal sets yield invariant masses that agree within
numerical tolerance: all six pairwise invariant-mass-squares differ by at
most 2 MeV² (2·10⁻⁶ GeV²), though not exactly (see the counterexample). -/
theorem C7_amended_consistency :
    (∀ p d1 d2 d3 d4 : LorentzVec ℝ,
      (calc_phsp_masses p d1 d2 d3 d4).1 = (d1 + d2).M ∧
        (calc_phsp_masses p d1 d2 d3 d4).2 = (d3 + d4).M ∧
        (crossCheckMs d1 d2 d4 d3)[0]! =
          (calc_phsp_masses p d1 d2 d3 d4).1 / 1000 ∧
        (crossCheckMs d1 d2 d4 d3)[5]! =
          (calc_phsp_masses p d1 d2 d3 d4).2 / 1000) ∧
      |(k_MeV + osPi1_MeV).massSq -
        (testKVec_MeV + testOSPi1Vec_MeV).massSq| ≤ 2 ∧
      |(k_MeV + osPi2_MeV).massSq -
        (testKVec_MeV + testOSPi2Vec_MeV).massSq| ≤ 2 ∧
      |(k_MeV + ssPi_MeV).massSq -
        (testKVec_MeV + testSSPiVec_MeV).massSq| ≤ 2 ∧
      |(osPi1_MeV + osPi2_MeV).massSq -
        (testOSPi1Vec_MeV + testOSPi2Vec_MeV).massSq| ≤ 2 ∧
      |(osPi1_MeV + ssPi_MeV).massSq -
        (testOSPi1Vec_MeV + testSSPiVec_MeV).massSq| ≤ 2 ∧
      |(osPi2_MeV + ssPi_MeV).massSq -
        (testOSPi2Vec_MeV + testSSPiVec_MeV).massSq| ≤ 2 := by
  refine ⟨?_, ?_, ?_, ?_, ?_, ?_, ?_⟩
  · intro p d1 d2 d3 d4
    refine ⟨rfl, rfl, rfl, ?_⟩
    show (d4 + d3).M / 1000 = (d3 + d4).M / 1000
    rw [LorentzVec.add_comm']
  · rw [k_MeV_eq, osPi1_MeV_eq, testKVec_MeV_eq, testOSPi1Vec_MeV_eq]
    norm_num [LorentzVec.add_def, LorentzVec.massSq, abs_le]
  · rw [k_MeV_eq, osPi2_MeV_eq, testKVec_MeV_eq, testOSPi2Vec_MeV_eq]
    norm_num [LorentzVec.add_def, LorentzVec.massSq, abs_le]
  · rw [k_MeV_eq, ssPi_MeV_eq, testKVec_MeV_eq, testSSPiVec_MeV_eq]
    norm_num [LorentzVec.add_def, LorentzVec.massSq, abs_le]
  · rw [osPi1_MeV_eq, osPi2_MeV_eq, testOSPi1Vec_MeV_eq, testOSPi2Vec_MeV_eq]
    norm_num [LorentzVec.add_def, LorentzVec.massSq, abs_le]
  · rw [osPi1_MeV_eq, ssPi_MeV_eq, testOSPi1Vec_MeV_eq, testSSPiVec_MeV_eq]
    norm_num [LorentzVec.add_def, LorentzVec.massSq, abs_le]
  · rw [osPi2_MeV_eq, ssPi_MeV_eq, testOSPi2Vec_MeV_eq, testSSPiVec_MeV_eq]
    norm_num [LorentzVec.add_def, LorentzVec.massSq, abs_le]

/-- C10: For every pair of flags, the opposite-sign and same-sign pion
names are different strings, each drawn from {"pi#", "pi~"}. -/
theorem C10_pion_names_opposite :
    ∀ d r : Bool,
      getAmpGenOSPiName d r ≠ getAmpGenSSPiName d r ∧
      (getAmpGenOSPiName d r = "pi#" ∨ getAmpGenOSPiName d r = "pi~") ∧
      (getAmpGenSSPiName d r = "pi#" ∨ getAmpGenSSPiName d r = "pi~") := by
  decide

end K3PiUtils
